import Mathlib

/-!
Verification development for the libregto poker-trainer core.

The JavaScript source is shallowly embedded: JS strings become `String`,
JS numbers become `ℚ` (or `ℤ`/`ℕ` where the source only ever holds
integers), JS objects with fixed keys become structures, JS objects used
as dictionaries become association lists (`List (String × _)`), `null` /
`undefined` become `Option`, and functions that throw on bad input are
given `Option` results.  Wall-clock reads (`performance.now()`) and
timestamps (`new Date()`) are passed in as explicit parameters.
-/

namespace Libregto

/-! ## Hand model (src/js/modules/handStrength.js) -/

/-- `RANKS` from handStrength.js line 828: rank letters ordered
ace-high down to deuce, so a SMALLER index means a HIGHER rank. -/
def RANKS : List Char := ['A', 'K', 'Q', 'J', 'T', '9', '8', '7', '6', '5', '4', '3', '2']

/-- `SUITS` from handStrength.js line 829. -/
def SUITS : List Char := ['s', 'h', 'd', 'c']

/-- JS `Array.prototype.indexOf`: index of the first occurrence, `-1` when
absent (Lean's `List.indexOf` returns the length when absent). -/
def jsIndexOf (l : List Char) (c : Char) : Int :=
  let i := l.indexOf c
  if i = l.length then -1 else (i : Int)

/-- `normalizeHand` (handStrength.js lines 995-1016): uppercase the first
two characters, lowercase an optional third, put the higher rank first
(smaller `RANKS` index), drop the suffix for pairs, default non-pairs to
`o`.  The JS returns `null` for a falsy argument and throws on a 1-char
string; both are modelled as `none`. -/
def normalizeHand (s : String) : Option String :=
  match s.data with
  | c1 :: c2 :: rest =>
    let sfx : String :=
      match rest.head? with
      | some c => String.mk [c.toLower]
      | none => ""
    let rank1 := c1.toUpper
    let rank2 := c2.toUpper
    let r1 := jsIndexOf RANKS rank1
    let r2 := jsIndexOf RANKS rank2
    let p := if r1 > r2 then (rank2, rank1) else (rank1, rank2)
    if p.1 = p.2 then some (String.mk [p.1, p.2])
    else some (String.mk (p.1 :: p.2 :: (if sfx = "" then "o" else sfx).data))
  | _ => none

/-- The record `parseHand` builds (handStrength.js lines 867-882).  The JS
object's `notation` field is called `canonical` here (`notation` is a Lean
keyword). -/
structure ParsedHand where
  rank1 : Char
  rank2 : Char
  suited : Bool
  offsuit : Bool
  pair : Bool
  canonical : String
  deriving Repr, DecidableEq

/-- `parseHand` (handStrength.js lines 867-882): `null` for strings shorter
than 2 characters, otherwise a record built from the uppercased first two
characters and the lowercased optional third.  Note the source performs NO
validation of the rank characters. -/
def parseHand (s : String) : Option ParsedHand :=
  match s.data with
  | c1 :: c2 :: rest =>
    let rank1 := c1.toUpper
    let rank2 := c2.toUpper
    let sfxc : Option Char := rest.head?.map Char.toLower
    some
      { rank1 := rank1
        rank2 := rank2
        suited := sfxc = some 's'
        offsuit := sfxc = some 'o'
        pair := rank1 = rank2
        canonical :=
          if rank1 = rank2 then String.mk [rank1, rank2]
          else String.mk [rank1, rank2, sfxc.getD 'o'] }
  | _ => none

/-- `getHandFromGrid` (handStrength.js lines 1199-1210).  Out-of-range
indices (JS `undefined`) are modelled by the junk character `?`; the claims
only use `row, col < 13`. -/
def getHandFromGrid (row col : Nat) : String :=
  let rank1 := RANKS.getD row '?'
  let rank2 := RANKS.getD col '?'
  if row = col then String.mk [rank1, rank2]
  else if row < col then String.mk [rank1, rank2, 's']
  else String.mk [rank2, rank1, 'o']

/-- `getGridPosition` (handStrength.js lines 1213-1227): `indexOf` results
are JS numbers, so the pair is `Int × Int` (`-1` for an unknown rank). -/
def getGridPosition (s : String) : Option (Int × Int) :=
  (parseHand s).map fun h =>
    let row := jsIndexOf RANKS h.rank1
    let col := jsIndexOf RANKS h.rank2
    if h.pair then (row, row)
    else if h.suited then (min row col, max row col)
    else (max row col, min row col)

/-- `generateAllHands` (handStrength.js lines 845-862): the double loop
`i in 0..12`, `j in i..12`; pairs on the diagonal, then the suited and the
offsuit hand for each `i < j`. -/
def generateAllHands : List String :=
  (List.range 13).flatMap fun i =>
    (List.range' i (13 - i)).flatMap fun j =>
      if i = j then [String.mk [RANKS.getD i '?', RANKS.getD j '?']]
      else
        [String.mk [RANKS.getD i '?', RANKS.getD j '?', 's'],
         String.mk [RANKS.getD i '?', RANKS.getD j '?', 'o']]

/-- `ALL_HANDS` (handStrength.js line 864). -/
def ALL_HANDS : List String := generateAllHands


/-- JS `x || 30` on the equity lookup result (handStrength.js line 1120):
`undefined` (absent key) and `0` are falsy and give the fallback `30`. -/
def jsOr30 (v : Option ℚ) : ℚ :=
  match v with
  | some x => if x = 0 then 30 else x
  | none => 30

/-- JS object lookup on a string-keyed table modelled as an association
list: the value at the first matching key. -/
def lookupEq (l : List (String × ℚ)) (k : String) : Option ℚ :=
  (l.find? (fun p => p.1 == k)).map (·.2)

/-- `PREFLOP_EQUITY` (handStrength.js lines 1020-1115): heads-up equity
PERCENTAGES (0-100 scale) for all 169 canonical hands.  The source writes
one-decimal literals; `85.0` appears here as the identical rational
`mkRat 850 10`, and so on (decimal floats with one decimal digit are
exact, so nothing is lost). -/
def PREFLOP_EQUITY : List (String × ℚ) :=
  [("AA", mkRat 850 10), ("KK", mkRat 824 10), ("QQ", mkRat 800 10), ("JJ", mkRat 775 10),
   ("TT", mkRat 751 10), ("99", mkRat 721 10), ("88", mkRat 691 10), ("77", mkRat 662 10),
   ("66", mkRat 633 10), ("55", mkRat 603 10), ("44", mkRat 570 10), ("33", mkRat 537 10),
   ("22", mkRat 503 10), ("AKs", mkRat 670 10), ("AQs", mkRat 661 10), ("AJs", mkRat 654 10),
   ("ATs", mkRat 647 10), ("A9s", mkRat 630 10), ("A8s", mkRat 621 10), ("A7s", mkRat 611 10),
   ("A6s", mkRat 600 10), ("A5s", mkRat 602 10), ("A4s", mkRat 593 10), ("A3s", mkRat 585 10),
   ("A2s", mkRat 577 10), ("AKo", mkRat 653 10), ("AQo", mkRat 644 10), ("AJo", mkRat 636 10),
   ("ATo", mkRat 628 10), ("A9o", mkRat 607 10), ("A8o", mkRat 597 10), ("A7o", mkRat 586 10),
   ("A6o", mkRat 574 10), ("A5o", mkRat 576 10), ("A4o", mkRat 566 10), ("A3o", mkRat 558 10),
   ("A2o", mkRat 550 10), ("KQs", mkRat 634 10), ("KJs", mkRat 626 10), ("KTs", mkRat 619 10),
   ("K9s", mkRat 600 10), ("K8s", mkRat 585 10), ("K7s", mkRat 578 10), ("K6s", mkRat 568 10),
   ("K5s", mkRat 558 10), ("K4s", mkRat 549 10), ("K3s", mkRat 541 10), ("K2s", mkRat 533 10),
   ("KQo", mkRat 614 10), ("KJo", mkRat 606 10), ("KTo", mkRat 598 10), ("K9o", mkRat 576 10),
   ("K8o", mkRat 558 10), ("K7o", mkRat 550 10), ("K6o", mkRat 539 10), ("K5o", mkRat 529 10),
   ("K4o", mkRat 519 10), ("K3o", mkRat 511 10), ("K2o", mkRat 502 10), ("QJs", mkRat 603 10),
   ("QTs", mkRat 595 10), ("Q9s", mkRat 579 10), ("Q8s", mkRat 562 10), ("Q7s", mkRat 546 10),
   ("Q6s", mkRat 540 10), ("Q5s", mkRat 531 10), ("Q4s", mkRat 522 10), ("Q3s", mkRat 514 10),
   ("Q2s", mkRat 506 10), ("QJo", mkRat 582 10), ("QTo", mkRat 573 10), ("Q9o", mkRat 553 10),
   ("Q8o", mkRat 533 10), ("Q7o", mkRat 515 10), ("Q6o", mkRat 508 10), ("Q5o", mkRat 498 10),
   ("Q4o", mkRat 488 10), ("Q3o", mkRat 479 10), ("Q2o", mkRat 471 10), ("JTs", mkRat 575 10),
   ("J9s", mkRat 558 10), ("J8s", mkRat 542 10), ("J7s", mkRat 524 10), ("J6s", mkRat 510 10),
   ("J5s", mkRat 504 10), ("J4s", mkRat 495 10), ("J3s", mkRat 487 10), ("J2s", mkRat 479 10),
   ("JTo", mkRat 554 10), ("J9o", mkRat 534 10), ("J8o", mkRat 515 10), ("J7o", mkRat 495 10),
   ("J6o", mkRat 479 10), ("J5o", mkRat 473 10), ("J4o", mkRat 463 10), ("J3o", mkRat 455 10),
   ("J2o", mkRat 446 10), ("T9s", mkRat 543 10), ("T8s", mkRat 526 10), ("T7s", mkRat 509 10),
   ("T6s", mkRat 493 10), ("T5s", mkRat 478 10), ("T4s", mkRat 472 10), ("T3s", mkRat 464 10),
   ("T2s", mkRat 456 10), ("T9o", mkRat 517 10), ("T8o", mkRat 498 10), ("T7o", mkRat 478 10),
   ("T6o", mkRat 460 10), ("T5o", mkRat 444 10), ("T4o", mkRat 437 10), ("T3o", mkRat 428 10),
   ("T2o", mkRat 420 10), ("98s", mkRat 511 10), ("97s", mkRat 495 10), ("96s", mkRat 478 10),
   ("95s", mkRat 461 10), ("94s", mkRat 447 10), ("93s", mkRat 441 10), ("92s", mkRat 434 10),
   ("98o", mkRat 483 10), ("97o", mkRat 465 10), ("96o", mkRat 445 10), ("95o", mkRat 427 10),
   ("94o", mkRat 412 10), ("93o", mkRat 405 10), ("92o", mkRat 397 10), ("87s", mkRat 482 10),
   ("86s", mkRat 465 10), ("85s", mkRat 448 10), ("84s", mkRat 432 10), ("83s", mkRat 418 10),
   ("82s", mkRat 412 10), ("87o", mkRat 452 10), ("86o", mkRat 432 10), ("85o", mkRat 414 10),
   ("84o", mkRat 396 10), ("83o", mkRat 381 10), ("82o", mkRat 374 10), ("76s", mkRat 457 10),
   ("75s", mkRat 440 10), ("74s", mkRat 423 10), ("73s", mkRat 407 10), ("72s", mkRat 394 10),
   ("76o", mkRat 425 10), ("75o", mkRat 406 10), ("74o", mkRat 387 10), ("73o", mkRat 369 10),
   ("72o", mkRat 355 10), ("65s", mkRat 432 10), ("64s", mkRat 414 10), ("63s", mkRat 398 10),
   ("62s", mkRat 384 10), ("65o", mkRat 398 10), ("64o", mkRat 378 10), ("63o", mkRat 360 10),
   ("62o", mkRat 345 10), ("54s", mkRat 411 10), ("53s", mkRat 394 10), ("52s", mkRat 379 10),
   ("54o", mkRat 376 10), ("53o", mkRat 357 10), ("52o", mkRat 342 10), ("43s", mkRat 380 10),
   ("42s", mkRat 366 10), ("43o", mkRat 343 10), ("42o", mkRat 327 10), ("32s", mkRat 354 10),
   ("32o", mkRat 316 10)]

/-- `getEquity` (handStrength.js lines 1118-1121).  `none` models the
TypeError the JS throws on a 1-character string; for the empty string the
JS looks up `null` in the table and falls back to 30. -/
def getEquity (s : String) : Option ℚ :=
  match normalizeHand s with
  | some h => some (jsOr30 (lookupEq PREFLOP_EQUITY h))
  | none => if s = "" then some 30 else none


/-! ## Per-claim development: hand model claims -/

/-- Suffix choices a valid 2-3 character hand string can carry: none,
or a suited/offsuit letter in either case. -/
def sfxChoices : List (List Char) := [[], ['s'], ['o'], ['S'], ['O']]

/-- Executable check behind claim C4, one (rank-index, rank-index, suffix)
case at a time; `r` is the `normalizeHand` result for that case. -/
def normalizeCheckAux (i j : Nat) (sfx : List Char) (r : Option String) : Bool :=
  match r with
  | none => false
  | some t =>
    (normalizeHand t == some t) &&
    (t.data.getD 0 '?' == RANKS.getD (min i j) '?') &&
    (t.data.getD 1 '?' == RANKS.getD (max i j) '?') &&
    (cond (i == j) (t.length == 2) (t.length == 3)) &&
    (cond (!(i == j) && sfx.isEmpty) (t.data.getD 2 '?' == 'o') true)

def normalizeCheck (i j : Nat) (sfx : List Char) : Bool :=
  normalizeCheckAux i j sfx (normalizeHand (String.mk (RANKS.getD i '?' :: RANKS.getD j '?' :: sfx)))

theorem normalizeCheck_all : ((List.range 13).all fun i => (List.range 13).all fun j =>
    sfxChoices.all fun sfx => normalizeCheck i j sfx) = true := by rfl

/-- Executable check behind claim C3's round-trip part. -/
def gridCheck (row col : Nat) : Bool :=
  (getGridPosition (getHandFromGrid row col) == some ((row : Int), (col : Int))) &&
  ((parseHand (getHandFromGrid row col)).map (fun h => (h.pair, h.suited, h.offsuit))
     == some (decide (row = col), decide (row < col), decide (col < row)))

theorem gridCheck_all : ((List.range 13).all fun row => (List.range 13).all fun col =>
    gridCheck row col) = true := by rfl

theorem gridCover_all : ((List.range 13).all fun row => (List.range 13).all fun col =>
    (ALL_HANDS.map getGridPosition).count (some ((row : Int), (col : Int))) == 1) = true := by rfl

/-- Turn an `all` over `List.range` into a bounded-`Fin` fact. -/
theorem all_range_fin {n : Nat} {f : Nat → Bool}
    (h : ((List.range n).all f) = true) (i : Fin n) : f i = true :=
  List.all_eq_true.mp h i (List.mem_range.mpr i.isLt)


/-- Claim C3: for every row and col in 0..12,
`getGridPosition (getHandFromGrid row col)` equals `(row, col)` (the
diagonal is a pair, above it suited, below it offsuit), `ALL_HANDS` has
exactly 169 elements, and their grid positions cover each of the 169 grid
cells exactly once. -/
theorem claim_C3_grid_bijection :
    (∀ row col : Fin 13,
        getGridPosition (getHandFromGrid row col) = some ((row.1 : Int), (col.1 : Int)) ∧
        (parseHand (getHandFromGrid row col)).map (fun h => (h.pair, h.suited, h.offsuit))
          = some (decide (row.1 = col.1), decide (row.1 < col.1), decide (col.1 < row.1)))
    ∧ ALL_HANDS.length = 169
    ∧ (∀ row col : Fin 13,
        (ALL_HANDS.map getGridPosition).count (some ((row.1 : Int), (col.1 : Int))) = 1) := by
  refine ⟨?_, by rfl, ?_⟩
  · intro row col
    have h1 := all_range_fin (all_range_fin gridCheck_all row) col
    simp only [gridCheck, Bool.and_eq_true, beq_iff_eq] at h1
    exact h1
  · intro row col
    have h1 := all_range_fin (all_range_fin gridCover_all row) col
    exact beq_iff_eq.mp h1

/-- Claim C4: `normalizeHand` is idempotent on every valid 2-3 character
hand string, puts the higher rank first, drops the suffix for pairs,
defaults suffix-less non-pairs to `o`, and maps both `AKs` and `KAs` to
`AKs`. -/
theorem claim_C4_normalizeHand_canonical :
    (∀ i j : Fin 13, ∀ sfx ∈ sfxChoices, ∃ t : String,
        normalizeHand (String.mk (RANKS.getD i.1 '?' :: RANKS.getD j.1 '?' :: sfx)) = some t ∧
        normalizeHand t = some t ∧
        t.data.getD 0 '?' = RANKS.getD (min i.1 j.1) '?' ∧
        t.data.getD 1 '?' = RANKS.getD (max i.1 j.1) '?' ∧
        (i.1 = j.1 → t.length = 2) ∧ (i.1 ≠ j.1 → t.length = 3) ∧
        (i.1 ≠ j.1 → sfx = [] → t.data.getD 2 '?' = 'o'))
    ∧ normalizeHand "AKs" = some "AKs" ∧ normalizeHand "KAs" = some "AKs" := by
  refine ⟨?_, by rfl, by rfl⟩
  intro i j sfx hsfx
  have h := List.all_eq_true.mp (all_range_fin (all_range_fin normalizeCheck_all i) j) sfx hsfx
  unfold normalizeCheck at h
  cases hn : normalizeHand (String.mk (RANKS.getD i.1 '?' :: RANKS.getD j.1 '?' :: sfx)) with
  | none => rw [hn] at h; exact absurd h (by simp [normalizeCheckAux])
  | some t =>
    rw [hn] at h
    simp only [normalizeCheckAux, Bool.and_eq_true] at h
    obtain ⟨⟨⟨⟨h1, h2⟩, h3⟩, h4⟩, h5⟩ := h
    refine ⟨t, rfl, beq_iff_eq.mp h1, beq_iff_eq.mp h2, beq_iff_eq.mp h3, ?_, ?_, ?_⟩
    · intro hij
      rw [beq_iff_eq.mpr hij, Bool.cond_true] at h4
      exact beq_iff_eq.mp h4
    · intro hij
      rw [beq_eq_false_iff_ne.mpr hij, Bool.cond_false] at h4
      exact beq_iff_eq.mp h4
    · intro hij hsfx0
      subst hsfx0
      rw [beq_eq_false_iff_ne.mpr hij] at h5
      simp only [Bool.not_false, List.isEmpty_nil, Bool.and_true, Bool.cond_true] at h5
      exact beq_iff_eq.mp h5

/-- Claim C6 counterexample: `parseHand "XZ"` succeeds (yields a Hand
record) even though neither `X` nor `Z` is one of the 13 valid rank
letters, so `parseHand` does NOT fail on invalid rank characters. -/
theorem claim_C6_counterexample :
    (parseHand "XZ").isSome = true ∧ 'X' ∉ RANKS ∧ 'Z' ∉ RANKS := by decide

/-- Claim C6 (amended): `parseHand` returns `none` exactly when the input
is shorter than 2 characters; it performs no validation of the rank
characters, so any 2+ character string yields a Hand record. -/
theorem claim_C6_parseHand_none_iff :
    ∀ s : String, parseHand s = none ↔ s.data.length < 2 := by
  intro s
  obtain ⟨l⟩ := s
  rcases l with _ | ⟨c1, _ | ⟨c2, rest⟩⟩ <;> simp [parseHand]

/-- Claim C5 counterexample: `getEquity` is on a 0-100 percent scale, not
in the interval [0,1]: the equity of `AA` is 85. -/
theorem claim_C5_counterexample :
    getEquity "AA" = some 85 ∧ ¬ ((85 : ℚ) ≤ 1) := by
  refine ⟨by decide, by decide⟩

/-- Claim C5 (amended): every value `getEquity` returns lies in the
percent interval [0,100], and any input whose normalization is absent
from the equity table gets the fixed fallback sentinel 30 (not zero). -/
theorem claim_C5_equity_percent_scale :
    ∀ (s : String) (v : ℚ), getEquity s = some v →
      (0 ≤ v ∧ v ≤ 100) ∧
      (∀ h, normalizeHand s = some h → lookupEq PREFLOP_EQUITY h = none → v = 30) := by
  have htab : ∀ p ∈ PREFLOP_EQUITY, 0 ≤ p.2 ∧ p.2 ≤ 100 := by
    have hall : (PREFLOP_EQUITY.all fun p => decide (0 ≤ p.2) && decide (p.2 ≤ 100)) = true := by
      decide
    intro p hp
    have := List.all_eq_true.mp hall p hp
    simp only [Bool.and_eq_true, decide_eq_true_eq] at this
    exact this
  intro s v hv
  unfold getEquity at hv
  cases hn : normalizeHand s with
  | none =>
    rw [hn] at hv
    by_cases hs : s = ""
    · rw [if_pos hs] at hv
      obtain rfl : (30 : ℚ) = v := Option.some.inj hv
      exact ⟨⟨by decide, by decide⟩, fun h hh => absurd hh (by simp)⟩
    · rw [if_neg hs] at hv
      exact absurd hv (by simp)
  | some h0 =>
    rw [hn] at hv
    obtain rfl : jsOr30 (lookupEq PREFLOP_EQUITY h0) = v := Option.some.inj hv
    cases hl : lookupEq PREFLOP_EQUITY h0 with
    | none =>
      refine ⟨⟨by decide, by decide⟩, fun h hh _ => rfl⟩
    | some x =>
      have hmem : ∃ p ∈ PREFLOP_EQUITY, p.2 = x := by
        unfold lookupEq at hl
        cases hf : PREFLOP_EQUITY.find? (fun p => p.1 == h0) with
        | none => rw [hf] at hl; exact absurd hl (by simp)
        | some pr =>
          rw [hf] at hl
          exact ⟨pr, List.mem_of_find?_eq_some hf, Option.some.inj hl⟩
      obtain ⟨pr, hpr, hx⟩ := hmem
      have hb := htab pr hpr
      rw [hx] at hb
      constructor
      · rw [show jsOr30 (some x) = if x = 0 then 30 else x from rfl]
        by_cases hx0 : x = 0
        · rw [if_pos hx0]; exact ⟨by decide, by decide⟩
        · rw [if_neg hx0]; exact hb
      · intro h hh hlk
        obtain rfl : h0 = h := Option.some.inj hh
        rw [hlk] at hl
        exact absurd hl (by simp)

/-- Claim C5 witness: `getEquity` applied to the out-of-table input `ZZ2`
(normalizing to `ZZ`) returns the sentinel 30, which the amended theorem
bounds. -/
theorem claim_C5_witness :
    ((0 : ℚ) ≤ 30 ∧ (30 : ℚ) ≤ 100) ∧
      (∀ h, normalizeHand "ZZ2" = some h → lookupEq PREFLOP_EQUITY h = none → (30 : ℚ) = 30) :=
  claim_C5_equity_percent_scale "ZZ2" 30 (by rfl)


/-! ## Board texture (src/unnamed/part_006, a drill module) -/

/-- A playing card as the source builds them: `{ rank, suit }` with
one-character rank and suit. -/
structure Card where
  rank : Char
  suit : Char
  deriving Repr, DecidableEq

/-- `getRankValue` (handStrength.js lines 1131-1134): the broadway table,
else `parseInt` of the digit.  JS yields `NaN` for a non-digit, non-table
rank; that junk value is modelled as 0 (the claims only involve the 13
valid ranks, and claim C7 is insensitive to the choice because both sides
of it use this same function). -/
def getRankValue (rank : Char) : Int :=
  if rank = 'A' then 14
  else if rank = 'K' then 13
  else if rank = 'Q' then 12
  else if rank = 'J' then 11
  else if rank = 'T' then 10
  else if rank.isDigit then ((rank.toNat - 48 : Nat) : Int)
  else 0

/-- The `gaps`/`isConnected` computation of `analyzeBoardTexture`
(part_006 lines 686-690): sort ascending (JS `.sort((a, b) => a - b)`),
take adjacent differences, require every gap at most 2. -/
def sortedGapsLe2 (l : List Int) : Bool :=
  (((l.insertionSort (· ≤ ·)).zip (l.insertionSort (· ≤ ·)).tail).map
    fun p => p.2 - p.1).all fun g => decide (g ≤ 2)

/-- `analyzeBoardTexture` (part_006 lines 663-698). -/
def analyzeBoardTexture (board : List Card) : String :=
  if board.length < 3 then "unknown"
  else
    let suits := board.map (·.suit)
    let ranks := board.map (·.rank)
    if suits.getD 0 '?' = suits.getD 1 '?' ∧ suits.getD 1 '?' = suits.getD 2 '?' then "monotone"
    else if ranks.getD 0 '?' = ranks.getD 1 '?' ∨ ranks.getD 1 '?' = ranks.getD 2 '?'
        ∨ ranks.getD 0 '?' = ranks.getD 2 '?' then "paired"
    else
      let hasTwoTone := suits.any fun su => suits.count su == 2
      let isConnected := sortedGapsLe2 (ranks.map getRankValue)
      if hasTwoTone || isConnected then "wet" else "dry"

/-- The texture classifier as the SPEC's words describe it (for claim C7):
monotone iff all three cards share a suit; else paired iff any two ranks
are equal; else wet iff exactly two cards share a suit or every gap
between adjacent sorted rank values is at most 2 (expressed through the
least, middle and greatest of the three rank values); else dry. -/
def specBoardTexture (c1 c2 c3 : Card) : String :=
  if c1.suit = c2.suit ∧ c2.suit = c3.suit ∧ c1.suit = c3.suit then "monotone"
  else if c1.rank = c2.rank ∨ c2.rank = c3.rank ∨ c1.rank = c3.rank then "paired"
  else
    let a := getRankValue c1.rank
    let b := getRankValue c2.rank
    let c := getRankValue c3.rank
    let lo := min a (min b c)
    let hi := max a (max b c)
    let mid := a + b + c - lo - hi
    if ((c1.suit = c2.suit ∨ c2.suit = c3.suit ∨ c1.suit = c3.suit)
          ∧ ¬(c1.suit = c2.suit ∧ c2.suit = c3.suit ∧ c1.suit = c3.suit))
        ∨ (mid - lo ≤ 2 ∧ hi - mid ≤ 2) then "wet"
    else "dry"


/-- The three rank values of a sorted 3-element list have adjacent gaps at
most 2 exactly when both the middle-minus-least and greatest-minus-middle
differences are at most 2. -/
theorem sortedGapsLe2_three (a b c : Int) :
    sortedGapsLe2 [a, b, c] = true ↔
      ((a + b + c - min a (min b c) - max a (max b c)) - min a (min b c) ≤ 2 ∧
       max a (max b c) - (a + b + c - min a (min b c) - max a (max b c)) ≤ 2) := by
  unfold sortedGapsLe2
  rcases le_or_lt b c with hbc | hbc
  · rcases le_or_lt a b with hab | hab
    · have hs : ([a, b, c].insertionSort (· ≤ ·)) = [a, b, c] := by
        simp [List.insertionSort, List.orderedInsert, hab, hbc]
      rw [hs]
      simp only [List.zip, List.zipWith, List.tail_cons, List.map_cons, List.map_nil,
        List.all_cons, List.all_nil, Bool.and_true, Bool.and_eq_true, decide_eq_true_eq]
      omega
    · rcases le_or_lt a c with hac | hac
      · have hs : ([a, b, c].insertionSort (· ≤ ·)) = [b, a, c] := by
          simp [List.insertionSort, List.orderedInsert, not_le.mpr hab, hbc, hac]
        rw [hs]
        simp only [List.zip, List.zipWith, List.tail_cons, List.map_cons, List.map_nil,
          List.all_cons, List.all_nil, Bool.and_true, Bool.and_eq_true, decide_eq_true_eq]
        omega
      · have hs : ([a, b, c].insertionSort (· ≤ ·)) = [b, c, a] := by
          simp [List.insertionSort, List.orderedInsert, not_le.mpr hab, hbc, not_le.mpr hac]
        rw [hs]
        simp only [List.zip, List.zipWith, List.tail_cons, List.map_cons, List.map_nil,
          List.all_cons, List.all_nil, Bool.and_true, Bool.and_eq_true, decide_eq_true_eq]
        omega
  · rcases le_or_lt a c with hac | hac
    · have hs : ([a, b, c].insertionSort (· ≤ ·)) = [a, c, b] := by
        simp [List.insertionSort, List.orderedInsert, not_le.mpr hbc, hac]
      rw [hs]
      simp only [List.zip, List.zipWith, List.tail_cons, List.map_cons, List.map_nil,
        List.all_cons, List.all_nil, Bool.and_true, Bool.and_eq_true, decide_eq_true_eq]
      omega
    · rcases le_or_lt a b with hab | hab
      · have hs : ([a, b, c].insertionSort (· ≤ ·)) = [c, a, b] := by
          simp [List.insertionSort, List.orderedInsert, not_le.mpr hbc, not_le.mpr hac, hab]
        rw [hs]
        simp only [List.zip, List.zipWith, List.tail_cons, List.map_cons, List.map_nil,
          List.all_cons, List.all_nil, Bool.and_true, Bool.and_eq_true, decide_eq_true_eq]
        omega
      · have hs : ([a, b, c].insertionSort (· ≤ ·)) = [c, b, a] := by
          simp [List.insertionSort, List.orderedInsert, not_le.mpr hbc, not_le.mpr hac,
            not_le.mpr hab]
        rw [hs]
        simp only [List.zip, List.zipWith, List.tail_cons, List.map_cons, List.map_nil,
          List.all_cons, List.all_nil, Bool.and_true, Bool.and_eq_true, decide_eq_true_eq]
        omega

/-- For three suits, "some suit occurs exactly twice" (the source's
suit-count check) is "two cards share a suit but not all three do". -/
theorem twoTone_equiv (s1 s2 s3 : Char) :
    (([s1, s2, s3].any fun su => [s1, s2, s3].count su == 2) = true) ↔
      ((s1 = s2 ∨ s2 = s3 ∨ s1 = s3) ∧ ¬(s1 = s2 ∧ s2 = s3 ∧ s1 = s3)) := by
  by_cases h12 : s1 = s2 <;> by_cases h23 : s2 = s3 <;> by_cases h13 : s1 = s3
  · subst h12; subst h23
    simp [List.count_cons]
  · exact absurd (h12.trans h23) h13
  · exact absurd (h12.symm.trans h13) h23
  · subst h12
    simp [List.any_cons, List.count_cons, h23, Ne.symm h23, h13]
  · exact absurd (h13.trans h23.symm) h12
  · subst h23
    simp [List.any_cons, List.count_cons, h12, Ne.symm h12, h13]
  · subst h13
    simp [List.any_cons, List.count_cons, h12, Ne.symm h12, h23, Ne.symm h23]
  · simp [List.any_cons, List.count_cons, h12, Ne.symm h12, h23, Ne.symm h23, h13, Ne.symm h13]

/-- `analyzeBoardTexture` on a 3-card board, with the index accesses
computed away. -/
theorem analyzeBoardTexture_three (c1 c2 c3 : Card) :
    analyzeBoardTexture [c1, c2, c3] =
      (if c1.suit = c2.suit ∧ c2.suit = c3.suit then "monotone"
       else if c1.rank = c2.rank ∨ c2.rank = c3.rank ∨ c1.rank = c3.rank then "paired"
       else if (([c1.suit, c2.suit, c3.suit].any fun su => [c1.suit, c2.suit, c3.suit].count su == 2)
                 || sortedGapsLe2 [getRankValue c1.rank, getRankValue c2.rank, getRankValue c3.rank])
       then "wet"
       else "dry") := by
  rfl

/-- Claim C7: on every 3-card board `analyzeBoardTexture` returns monotone
iff all three cards share a suit; otherwise paired iff two ranks match;
otherwise wet iff two cards share a suit or all adjacent sorted rank gaps
are at most 2; otherwise dry — and the four concrete example boards
classify as dry, wet, paired and monotone. -/
theorem claim_C7_board_texture :
    (∀ c1 c2 c3 : Card, analyzeBoardTexture [c1, c2, c3] = specBoardTexture c1 c2 c3)
    ∧ analyzeBoardTexture [⟨'K','h'⟩, ⟨'7','d'⟩, ⟨'2','c'⟩] = "dry"
    ∧ analyzeBoardTexture [⟨'J','h'⟩, ⟨'T','h'⟩, ⟨'9','c'⟩] = "wet"
    ∧ analyzeBoardTexture [⟨'K','c'⟩, ⟨'K','d'⟩, ⟨'4','s'⟩] = "paired"
    ∧ analyzeBoardTexture [⟨'9','h'⟩, ⟨'6','h'⟩, ⟨'3','h'⟩] = "monotone" := by
  refine ⟨?_, by rfl, by rfl, by rfl, by rfl⟩
  intro c1 c2 c3
  rw [analyzeBoardTexture_three]
  rw [show specBoardTexture c1 c2 c3 =
      (if c1.suit = c2.suit ∧ c2.suit = c3.suit ∧ c1.suit = c3.suit then "monotone"
       else if c1.rank = c2.rank ∨ c2.rank = c3.rank ∨ c1.rank = c3.rank then "paired"
       else if ((c1.suit = c2.suit ∨ c2.suit = c3.suit ∨ c1.suit = c3.suit)
            ∧ ¬(c1.suit = c2.suit ∧ c2.suit = c3.suit ∧ c1.suit = c3.suit))
          ∨ ((getRankValue c1.rank + getRankValue c2.rank + getRankValue c3.rank
                - min (getRankValue c1.rank) (min (getRankValue c2.rank) (getRankValue c3.rank))
                - max (getRankValue c1.rank) (max (getRankValue c2.rank) (getRankValue c3.rank)))
              - min (getRankValue c1.rank) (min (getRankValue c2.rank) (getRankValue c3.rank)) ≤ 2
            ∧ max (getRankValue c1.rank) (max (getRankValue c2.rank) (getRankValue c3.rank))
              - (getRankValue c1.rank + getRankValue c2.rank + getRankValue c3.rank
                - min (getRankValue c1.rank) (min (getRankValue c2.rank) (getRankValue c3.rank))
                - max (getRankValue c1.rank) (max (getRankValue c2.rank) (getRankValue c3.rank))) ≤ 2)
       then "wet" else "dry") from rfl]
  by_cases hm : c1.suit = c2.suit ∧ c2.suit = c3.suit
  · rw [if_pos hm,
      if_pos (show c1.suit = c2.suit ∧ c2.suit = c3.suit ∧ c1.suit = c3.suit from
        ⟨hm.1, hm.2, hm.1.trans hm.2⟩)]
  · rw [if_neg hm,
      if_neg (show ¬(c1.suit = c2.suit ∧ c2.suit = c3.suit ∧ c1.suit = c3.suit) from
        fun hc => hm ⟨hc.1, hc.2.1⟩)]
    by_cases hp : c1.rank = c2.rank ∨ c2.rank = c3.rank ∨ c1.rank = c3.rank
    · rw [if_pos hp, if_pos hp]
    · rw [if_neg hp, if_neg hp]
      refine if_congr ?_ rfl rfl
      rw [Bool.or_eq_true, twoTone_equiv, sortedGapsLe2_three]


/-! ## Range statistics (src/js/components/ActionHistory.js) -/

/-- JS `Number.prototype.toFixed(1)` produces a one-decimal string; it is
modelled as the rational that string denotes: the value rounded to the
nearest tenth (ties away from zero, which for the nonnegative values here
is Lean's `round`). -/
def jsToFixed1 (x : ℚ) : ℚ := ((round (x * 10) : ℤ) : ℚ) / 10

/-- The record `getRangeStats` returns (ActionHistory.js lines 563-570). -/
structure RangeStats where
  hands : ℕ
  pairs : ℕ
  suited : ℕ
  offsuit : ℕ
  combos : ℕ
  percentage : ℚ
  deriving Repr, DecidableEq

/-- `getRangeStats` (ActionHistory.js lines 538-571): normalize, take the
set of distinct hands, count pairs (2 characters) / suited (`s` suffix) /
offsuit, weight 6/4/12 combos out of 1,326, and report the percentage
`toFixed(1)`.  The JS `Set` is modelled by `dedup` (the counts only
depend on the underlying set), and `hand.endsWith('s')` by a check of
the last character. -/
def getRangeStats (range : List String) : RangeStats :=
  let hands := range.filterMap normalizeHand
  let uniqueHands := hands.dedup
  let pairs := (uniqueHands.filter fun h => h.length == 2).length
  let suited := (uniqueHands.filter fun h => !(h.length == 2) && h.data.getLast? == some 's').length
  let offsuit := (uniqueHands.filter fun h => !(h.length == 2) && !(h.data.getLast? == some 's')).length
  let totalCombos := pairs * 6 + suited * 4 + offsuit * 12
  { hands := uniqueHands.length
    pairs := pairs
    suited := suited
    offsuit := offsuit
    combos := totalCombos
    percentage := jsToFixed1 ((totalCombos : ℚ) / 1326 * 100) }

/-- Claim C8 counterexample: for the range `{"AA"}` the reported
percentage is 0.5 (the one-decimal `toFixed(1)` rounding), which differs
from 6/1326*100 ≈ 0.4525. -/
theorem claim_C8_counterexample :
    (getRangeStats ["AA"]).percentage = 1/2 ∧ ((6 : ℚ) / 1326 * 100 ≠ 1/2) := by
  constructor
  · rw [show (getRangeStats ["AA"]).percentage = jsToFixed1 (((6 : ℕ) : ℚ) / 1326 * 100)
      from rfl]
    unfold jsToFixed1
    rw [round_eq]
    norm_num
  · norm_num

/-- Claim C8 (amended): the combinatorial weighting is 6/4/12 combos out
of 1,326 (`{"AA"}` has 6 combos, `{"AKs"}` 4, `{"AKo"}` 12, and in
general `combos = pairs*6 + suited*4 + offsuit*12`), but the reported
percentage is that ratio rounded to one decimal: 0.5, 0.3 and 0.9
respectively rather than 0.4525/0.3016/0.9050. -/
theorem claim_C8_range_weighting :
    ((getRangeStats ["AA"]).pairs = 1 ∧ (getRangeStats ["AA"]).combos = 6 ∧
     (getRangeStats ["AKs"]).suited = 1 ∧ (getRangeStats ["AKs"]).combos = 4 ∧
     (getRangeStats ["AKo"]).offsuit = 1 ∧ (getRangeStats ["AKo"]).combos = 12) ∧
    (∀ range : List String,
        (getRangeStats range).combos =
          (getRangeStats range).pairs * 6 + (getRangeStats range).suited * 4 +
            (getRangeStats range).offsuit * 12 ∧
        (getRangeStats range).percentage =
          jsToFixed1 (((getRangeStats range).combos : ℚ) / 1326 * 100)) ∧
    ((getRangeStats ["AA"]).percentage = 1/2 ∧
     (getRangeStats ["AKs"]).percentage = 3/10 ∧
     (getRangeStats ["AKo"]).percentage = 9/10) := by
  refine ⟨by decide, fun range => ⟨rfl, rfl⟩, ?_, ?_, ?_⟩
  · rw [show (getRangeStats ["AA"]).percentage = jsToFixed1 (((6 : ℕ) : ℚ) / 1326 * 100)
      from rfl]
    unfold jsToFixed1
    rw [round_eq]
    norm_num
  · rw [show (getRangeStats ["AKs"]).percentage = jsToFixed1 (((4 : ℕ) : ℚ) / 1326 * 100)
      from rfl]
    unfold jsToFixed1
    rw [round_eq]
    norm_num
  · rw [show (getRangeStats ["AKo"]).percentage = jsToFixed1 (((12 : ℕ) : ℚ) / 1326 * 100)
      from rfl]
    unfold jsToFixed1
    rw [round_eq]
    norm_num


/-! ## Progress storage (src/js/storage.js, src/unnamed/part_007)

The persisted progress document is modelled by `ProgressState`; string-keyed
JS objects of records become association lists.  `updateDrillProgress` and
`updateScenarioProgress` return the JS boolean (false when the unit id is
unknown) next to the updated document; `saveProgress` is the environment's
concern and assumed to succeed.  `new Date().toISOString()` timestamps are
passed in as an abstract `now : ℕ`. -/

/-- JS object property read `obj[k]` on a string-keyed record table. -/
def alistLookup {α : Type} (l : List (String × α)) (k : String) : Option α :=
  (l.find? fun p => p.1 == k).map (·.2)

/-- JS in-place mutation of the record at key `k` (all the source's writes
are guarded so that the key is present). -/
def alistSet {α : Type} (l : List (String × α)) (k : String) (f : α → α) :
    List (String × α) :=
  l.map fun p => if p.1 = k then (p.1, f p.2) else p

/-- `order[order.indexOf(uid) + 1]` guarded by
`0 <= indexOf(uid) < order.length - 1` (storage.js lines 512-513). -/
def nextInOrder (order : List String) (uid : String) : Option String :=
  (order.findIdx? (· == uid)).bind fun i =>
    if i + 1 < order.length then order.get? (i + 1) else none

/-- The session summary a drill/scenario hands to the store. -/
structure SessionStats where
  accuracy : ℚ
  bestStreak : ℚ
  avgTime : ℚ
  deriving Repr, DecidableEq

/-- A drill's progress record (storage.js lines 54-62 defaults). -/
structure DrillRecord where
  unlocked : Bool
  completed : Bool
  bestScore : ℚ
  bestStreak : ℚ
  bestTime : Option ℚ
  attempts : ℕ
  lastAttempt : Option ℕ
  deriving Repr, DecidableEq

/-- A scenario's progress record (part_007 lines 108-114 defaults). -/
structure ScenarioRecord where
  unlocked : Bool
  completed : Bool
  bestScore : ℚ
  attempts : ℕ
  lastAttempt : Option ℕ
  deriving Repr, DecidableEq

/-- `progress.stages.drills`. -/
structure DrillsStage where
  unlocked : Bool
  completed : Bool
  modules : List (String × DrillRecord)
  totalAttempts : ℕ
  achievements : List String
  deriving Repr, DecidableEq

/-- `progress.stages.scenarios`. -/
structure ScenariosStage where
  unlocked : Bool
  completed : Bool
  modules : List (String × ScenarioRecord)
  achievements : List String
  deriving Repr, DecidableEq

/-- The parts of the persisted progress document the claims touch
(`stages['full-hands'].unlocked` is kept as one flag). -/
structure ProgressState where
  drills : DrillsStage
  scenarios : ScenariosStage
  fullHandsUnlocked : Bool
  deriving Repr, DecidableEq

/-- `DRILL_ORDER` (storage.js line 132). -/
def DRILL_ORDER : List String :=
  ["hand-ranking", "open-fold", "equity-snap", "range-check", "position-speed"]

/-- `DRILL_THRESHOLDS` (storage.js lines 135-141). -/
def DRILL_THRESHOLDS : List (String × ℚ) :=
  [("hand-ranking", 80), ("open-fold", 75), ("equity-snap", 70),
   ("range-check", 75), ("position-speed", 80)]

/-- `DRILL_THRESHOLDS[drillId] || 70` (no threshold is 0, so the JS falsy
default is plain absence). -/
def getDrillThreshold (drillId : String) : ℚ :=
  (alistLookup DRILL_THRESHOLDS drillId).getD 70

/-- `SCENARIO_ORDER` (part_007 lines 191-194). -/
def SCENARIO_ORDER : List String :=
  ["defend-3bet", "bb-defense", "3bet-value", "sb-3bet-fold", "cold-4bet", "board-texture"]

/-- `SCENARIO_THRESHOLDS` (part_007 lines 197-204). -/
def SCENARIO_THRESHOLDS : List (String × ℚ) :=
  [("defend-3bet", 75), ("bb-defense", 75), ("3bet-value", 75),
   ("sb-3bet-fold", 75), ("cold-4bet", 70), ("board-texture", 80)]

/-- `SCENARIO_THRESHOLDS[scenarioId] || 75` (part_007 lines 877-879). -/
def getScenarioThreshold (uid : String) : ℚ :=
  (alistLookup SCENARIO_THRESHOLDS uid).getD 75

/-- `TIER_1_SCENARIOS` (part_007 line 207). -/
def TIER_1_SCENARIOS : List String :=
  ["defend-3bet", "bb-defense", "3bet-value", "sb-3bet-fold"]

/-- `TIER_1_SCENARIOS.filter(id => modules[id]?.bestScore >= 75).length`
(part_007 lines 777-779): how many Tier-1 scenarios have best score at
least 75. -/
def tier1At75 (mods : List (String × ScenarioRecord)) : ℕ :=
  (TIER_1_SCENARIOS.filter fun uid =>
    ((alistLookup mods uid).map fun r => decide (r.bestScore ≥ 75)).getD false).length

/-- `drill.bestTime === null || stats.avgTime < drill.bestTime`. -/
def bestTimeImproves (avgTime : ℚ) (bestTime : Option ℚ) : Bool :=
  match bestTime with
  | none => true
  | some t => decide (avgTime < t)

/-- The attempt-count/best-score/best-streak/best-time part of
`updateDrillProgress` (storage.js lines 488-505), before any completion
logic. -/
def drillRecordAttempt (drill : DrillRecord) (stats : SessionStats) (now : ℕ) :
    DrillRecord :=
  let drill1 := { drill with attempts := drill.attempts + 1, lastAttempt := some now }
  let drill2 := if stats.accuracy > drill1.bestScore
    then { drill1 with bestScore := stats.accuracy } else drill1
  let drill3 := if stats.bestStreak > drill2.bestStreak
    then { drill2 with bestStreak := stats.bestStreak } else drill2
  if stats.avgTime ≠ 0 ∧ bestTimeImproves stats.avgTime drill3.bestTime = true
    then { drill3 with bestTime := some stats.avgTime } else drill3

/-- `drill.completed = true`. -/
def drillComplete (d : DrillRecord) : DrillRecord := { d with completed := true }

/-- `modules[nextDrillId].unlocked = true`. -/
def unlockDrill (d : DrillRecord) : DrillRecord := { d with unlocked := true }

/-- The attempt-count/best-score part of `updateScenarioProgress`
(part_007 lines 763-770), before any completion logic. -/
def scenRecordAttempt (sc : ScenarioRecord) (stats : SessionStats) (now : ℕ) :
    ScenarioRecord :=
  let sc1 := { sc with attempts := sc.attempts + 1, lastAttempt := some now }
  if stats.accuracy > sc1.bestScore then { sc1 with bestScore := stats.accuracy } else sc1

/-- `scenario.completed = true`. -/
def scenComplete (sc : ScenarioRecord) : ScenarioRecord := { sc with completed := true }

/-- `modules['cold-4bet'].unlocked = true`. -/
def unlockScen (sc : ScenarioRecord) : ScenarioRecord := { sc with unlocked := true }

/-- `checkDrillAchievements` (storage.js lines 542-569): sequential
idempotent appends to the achievements list. -/
def checkDrillAchievements (mods : List (String × DrillRecord)) (ach : List String)
    (stats : SessionStats) : List String :=
  let a1 := if stats.avgTime < 2000 ∧ ach.contains "speed-demon" = false
    then ach ++ ["speed-demon"] else ach
  let a2 := if stats.accuracy = 100 ∧ a1.contains "perfect-run" = false
    then a1 ++ ["perfect-run"] else a1
  let a3 := if stats.bestStreak ≥ 25 ∧ a2.contains "on-fire" = false
    then a2 ++ ["on-fire"] else a2
  let allCompleted := DRILL_ORDER.all fun uid =>
    ((alistLookup mods uid).map (·.completed)).getD false
  if allCompleted = true ∧ a3.contains "drill-master" = false
    then a3 ++ ["drill-master"] else a3

/-- `updateDrillProgress` (storage.js lines 474-537). -/
def updateDrillProgress (p : ProgressState) (drillId : String) (stats : SessionStats)
    (now : ℕ) : Bool × ProgressState :=
  match alistLookup p.drills.modules drillId with
  | none => (false, p)
  | some drill =>
    let passed := stats.accuracy ≥ getDrillThreshold drillId
    let drill4 := drillRecordAttempt drill stats now
    if passed ∧ drill.completed = false then
      let mods1 := alistSet p.drills.modules drillId fun _ => drillComplete drill4
      let mods2 := match nextInOrder DRILL_ORDER drillId with
        | some nid => alistSet mods1 nid unlockDrill
        | none => mods1
      let allCompleted := DRILL_ORDER.all fun uid =>
        ((alistLookup mods2 uid).map (·.completed)).getD false
      let ach := checkDrillAchievements mods2 p.drills.achievements stats
      (true,
        { p with
            drills := { p.drills with
              modules := mods2
              totalAttempts := p.drills.totalAttempts + 1
              completed := if allCompleted then true else p.drills.completed
              achievements := ach }
            scenarios := if allCompleted then { p.scenarios with unlocked := true }
              else p.scenarios })
    else
      (true,
        { p with drills := { p.drills with
            modules := alistSet p.drills.modules drillId fun _ => drill4
            totalAttempts := p.drills.totalAttempts + 1 } })

/-- `checkScenarioAchievements` (part_007 lines 806-850). -/
def checkScenarioAchievements (mods : List (String × ScenarioRecord)) (ach : List String)
    (stats : SessionStats) : List String :=
  let a1 := if stats.accuracy = 100 ∧ ach.contains "perfect-decisions" = false
    then ach ++ ["perfect-decisions"] else ach
  let allCompleted := SCENARIO_ORDER.all fun uid =>
    ((alistLookup mods uid).map (·.completed)).getD false
  let a2 := if allCompleted = true ∧ a1.contains "scenario-solver" = false
    then a1 ++ ["scenario-solver"] else a1
  let preflopCompleted := ["defend-3bet", "bb-defense", "3bet-value", "sb-3bet-fold",
    "cold-4bet"].all fun uid => ((alistLookup mods uid).map (·.completed)).getD false
  let a3 := if preflopCompleted = true ∧ a2.contains "preflop-master" = false
    then a2 ++ ["preflop-master"] else a2
  let threeBetMastered := ["3bet-value", "sb-3bet-fold"].all fun uid =>
    ((alistLookup mods uid).map fun r => decide (r.bestScore ≥ 85)).getD false
  let a4 := if threeBetMastered = true ∧ a3.contains "3bet-specialist" = false
    then a3 ++ ["3bet-specialist"] else a3
  let defenseMastered := ["defend-3bet", "bb-defense"].all fun uid =>
    ((alistLookup mods uid).map fun r => decide (r.bestScore ≥ 85)).getD false
  if defenseMastered = true ∧ a4.contains "defender" = false
    then a4 ++ ["defender"] else a4

/-- `updateScenarioProgress` (part_007 lines 750-801). -/
def updateScenarioProgress (p : ProgressState) (scenarioId : String)
    (stats : SessionStats) (now : ℕ) : Bool × ProgressState :=
  match alistLookup p.scenarios.modules scenarioId with
  | none => (false, p)
  | some sc =>
    let passed := stats.accuracy ≥ getScenarioThreshold scenarioId
    let sc1 := scenRecordAttempt sc stats now
    if passed ∧ sc.completed = false then
      let mods1 := alistSet p.scenarios.modules scenarioId fun _ => scenComplete sc1
      let mods2 := if 2 ≤ tier1At75 mods1 ∧ (alistLookup mods1 "cold-4bet").isSome = true
        then alistSet mods1 "cold-4bet" unlockScen else mods1
      let allCompleted := SCENARIO_ORDER.all fun uid =>
        ((alistLookup mods2 uid).map (·.completed)).getD false
      let ach := checkScenarioAchievements mods2 p.scenarios.achievements stats
      (true,
        { p with
            scenarios := { p.scenarios with
              modules := mods2
              completed := if allCompleted then true else p.scenarios.completed
              achievements := ach }
            fullHandsUnlocked := if allCompleted then true else p.fullHandsUnlocked })
    else
      (true, { p with scenarios := { p.scenarios with
        modules := alistSet p.scenarios.modules scenarioId fun _ => sc1 } })


/-! ## ScenarioEngine (src/unnamed/part_004, lines 421-693)

The engine is generic over the question data `Q`, the answer payload `A`,
the explanation value `E` and the range-display value `R` that the
configured callbacks produce; `performance.now()` readings enter as an
explicit `now : ℚ` argument.  The single effect the engine performs on the
outside world — the `updateScenarioProgress` write inside `endScenario` —
is returned as an explicit effect list next to the new state. -/

/-- The `{correct, correctAnswer}` object `validateAnswer` returns. -/
structure SEValidation (A : Type) where
  correct : Bool
  correctAnswer : A

/-- One element of `state.answers` (part_004 lines 572-581). -/
structure SEAnswerRecord (Q A E : Type) where
  questionNumber : ℕ
  questionData : Q
  playerAnswer : A
  correctAnswer : A
  isCorrect : Bool
  time : ℚ
  explanation : E

/-- `this.state` of a ScenarioEngine (part_004 lines 468-479).
`categoryStats` is a string-keyed object of `{total, correct}` pairs. -/
structure SEState (Q A E : Type) where
  active : Bool
  currentQuestion : ℕ
  correct : ℕ
  currentQuestionData : Option Q
  questionStartTime : ℚ
  questionTimes : List ℚ
  answers : List (SEAnswerRecord Q A E)
  categoryStats : List (String × ℕ × ℕ)

/-- `this.config` (part_004 lines 444-453).  Reading the opaque
`questionData.category` field is modelled by the projection
`categoryOf` (`none` stands for an absent field). -/
structure SEConfig (Q A E R : Type) where
  id : String
  totalQuestions : ℕ
  generateQuestion : SEState Q A E → Q
  validateAnswer : A → Q → SEValidation A
  getExplanation : Q → SEValidation A → E
  getRangeDisplay : Option (Q → R)
  categoryOf : Q → Option String

/-- The running stats object `getStats` builds (part_004 lines 629-641). -/
structure SEStats where
  currentQuestion : ℕ
  totalQuestions : ℕ
  correct : ℕ
  total : ℕ
  accuracy : ℤ

/-- The final stats object `getFinalStats` builds (part_004 lines
647-668). -/
structure SEFinalStats where
  correct : ℕ
  total : ℕ
  accuracy : ℤ
  avgTime : ℚ
  fastestTime : ℚ
  passed : Bool

/-- The result object `submitAnswer` returns (part_004 lines 584-592). -/
structure SEResult (Q A E R : Type) where
  isCorrect : Bool
  playerAnswer : A
  correctAnswer : A
  explanation : E
  rangeDisplay : Option R
  time : ℚ
  stats : SEStats

/-- The engine's one outward write: `updateScenarioProgress(config.id,
stats)` from `endScenario` (part_004 line 609). -/
inductive SEEffect
  | progressWrite (id : String) (stats : SEFinalStats)

/-- `questionData.category || 'default'` (part_004 line 551). -/
def jsCategory (c : Option String) : String :=
  match c with
  | none => "default"
  | some s => if s = "" then "default" else s

/-- The `categoryStats[category]` create-then-increment of `submitAnswer`
(part_004 lines 552-558): totals always bumped, correct bumped when the
answer was right; a fresh `{total: 0, correct: 0}` entry is appended for
an unseen category (JS object insertion order). -/
def bumpCategory (l : List (String × ℕ × ℕ)) (cat : String) (isCorrect : Bool) :
    List (String × ℕ × ℕ) :=
  if (alistLookup l cat).isSome then
    alistSet l cat fun p => (p.1 + 1, p.2 + (if isCorrect then 1 else 0))
  else
    l ++ [(cat, 1, if isCorrect then 1 else 0)]

/-- JS `Math.round` on the nonnegative values here: `round` (floor of
x + 1/2). -/
def jsRound (x : ℚ) : ℤ := round x

namespace ScenarioEngine

variable {Q A E R : Type}

/-- `reset` (part_004 lines 468-479): the fresh state. -/
def reset : SEState Q A E :=
  { active := false
    currentQuestion := 0
    correct := 0
    currentQuestionData := none
    questionStartTime := 0
    questionTimes := []
    answers := []
    categoryStats := [] }

/-- `getStats` (part_004 lines 629-641). -/
def getStats (cfg : SEConfig Q A E R) (st : SEState Q A E) : SEStats :=
  let total := st.currentQuestion
  let accuracy := if total > 0 then jsRound ((st.correct : ℚ) / (total : ℚ) * 100) else 0
  { currentQuestion := st.currentQuestion
    totalQuestions := cfg.totalQuestions
    correct := st.correct
    total := total
    accuracy := accuracy }

/-- `getFinalStats` (part_004 lines 647-668): accuracy over
`config.totalQuestions`, average and minimum question time (0 for an
empty list), pass versus the stored threshold. -/
def getFinalStats (cfg : SEConfig Q A E R) (st : SEState Q A E) : SEFinalStats :=
  let total := cfg.totalQuestions
  let accuracy := jsRound ((st.correct : ℚ) / (total : ℚ) * 100)
  let avgTime := if st.questionTimes.length > 0
    then st.questionTimes.sum / (st.questionTimes.length : ℚ) else 0
  let fastestTime := if st.questionTimes.length > 0
    then st.questionTimes.foldr min (st.questionTimes.headD 0) else 0
  { correct := st.correct
    total := total
    accuracy := accuracy
    avgTime := avgTime
    fastestTime := fastestTime
    passed := accuracy ≥ getScenarioThreshold cfg.id }

/-- `stop` (part_004 lines 493-495): `this.state.active = false` and
nothing else — in particular no store write. -/
def stop (st : SEState Q A E) : SEState Q A E × List SEEffect :=
  ({ st with active := false }, [])

/-- `endScenario` (part_004 lines 603-623): deactivate, compute final
stats and write them to the progress store. -/
def endScenario (cfg : SEConfig Q A E R) (st : SEState Q A E) :
    SEState Q A E × List SEEffect :=
  let st1 := { st with active := false }
  let stats := getFinalStats cfg st1
  (st1, [SEEffect.progressWrite cfg.id stats])

/-- `nextQuestion` (part_004 lines 500-522): no-op when inactive; end the
scenario once `currentQuestion` reaches `totalQuestions`; otherwise
advance the counter, restart the timer and generate the next question
(the generator sees the state with the counter already advanced, as in
the source). -/
def nextQuestion (cfg : SEConfig Q A E R) (st : SEState Q A E) (now : ℚ) :
    SEState Q A E × List SEEffect :=
  if st.active = false then (st, [])
  else if st.currentQuestion ≥ cfg.totalQuestions then endScenario cfg st
  else
    let st1 := { st with currentQuestion := st.currentQuestion + 1, questionStartTime := now }
    let q := cfg.generateQuestion st1
    ({ st1 with currentQuestionData := some q }, [])

/-- `start` (part_004 lines 484-488): reset, activate, first question. -/
def start (cfg : SEConfig Q A E R) (now : ℚ) : SEState Q A E × List SEEffect :=
  nextQuestion cfg { (reset : SEState Q A E) with active := true } now

/-- `submitAnswer` (part_004 lines 529-598): `null` when the engine is
inactive or no question data is present; otherwise record the elapsed
time, validate, bump the aggregate and per-category counters, append the
answer record and return the result object.  Note the source does NOT
clear `currentQuestionData` here. -/
def submitAnswer (cfg : SEConfig Q A E R) (st : SEState Q A E) (answer : A) (now : ℚ) :
    Option (SEResult Q A E R) × SEState Q A E :=
  if st.active = false then (none, st)
  else
    match st.currentQuestionData with
    | none => (none, st)
    | some q =>
      let questionTime := now - st.questionStartTime
      let validation := cfg.validateAnswer answer q
      let isCorrect := validation.correct
      let category := jsCategory (cfg.categoryOf q)
      let explanation := cfg.getExplanation q validation
      let rangeDisplay := cfg.getRangeDisplay.map fun f => f q
      let answerRecord : SEAnswerRecord Q A E :=
        { questionNumber := st.currentQuestion
          questionData := q
          playerAnswer := answer
          correctAnswer := validation.correctAnswer
          isCorrect := isCorrect
          time := questionTime
          explanation := explanation }
      let st1 : SEState Q A E :=
        { st with
            questionTimes := st.questionTimes ++ [questionTime]
            correct := if isCorrect then st.correct + 1 else st.correct
            categoryStats := bumpCategory st.categoryStats category isCorrect
            answers := st.answers ++ [answerRecord] }
      (some
        { isCorrect := isCorrect
          playerAnswer := answer
          correctAnswer := validation.correctAnswer
          explanation := explanation
          rangeDisplay := rangeDisplay
          time := questionTime
          stats := getStats cfg st1 }, st1)

end ScenarioEngine

/-- A concrete engine configuration (2 questions, the answer Bool is
its own correctness) used to run the engine on explicit inputs. -/
def engineCfgEx : SEConfig ℕ Bool Unit Unit :=
  { id := "3bet-value"
    totalQuestions := 2
    generateQuestion := fun st => st.currentQuestion
    validateAnswer := fun a _ => { correct := a, correctAnswer := a }
    getExplanation := fun _ _ => ()
    getRangeDisplay := none
    categoryOf := fun _ => none }

/-- Claim C1 counterexample: run `start`, answer the first question,
and — without calling `nextQuestion` — submit again: the first call
leaves the engine active with the answered question's data still set, so
the second `submitAnswer` is ACCEPTED (returns a result, not null) and
mutates the state (correct-count 1 → 2, a second answer record). -/
theorem claim_C1_counterexample :
    ((ScenarioEngine.submitAnswer engineCfgEx
        (ScenarioEngine.start engineCfgEx 0).1 true 5).2.answers.length = 1 ∧
      (ScenarioEngine.submitAnswer engineCfgEx
        (ScenarioEngine.start engineCfgEx 0).1 true 5).2.active = true) ∧
    ((ScenarioEngine.submitAnswer engineCfgEx
        (ScenarioEngine.submitAnswer engineCfgEx
          (ScenarioEngine.start engineCfgEx 0).1 true 5).2 true 7).1.isSome = true ∧
      (ScenarioEngine.submitAnswer engineCfgEx
        (ScenarioEngine.submitAnswer engineCfgEx
          (ScenarioEngine.start engineCfgEx 0).1 true 5).2 true 7).2.correct = 2 ∧
      (ScenarioEngine.submitAnswer engineCfgEx
        (ScenarioEngine.start engineCfgEx 0).1 true 5).2.correct = 1 ∧
      (ScenarioEngine.submitAnswer engineCfgEx
        (ScenarioEngine.submitAnswer engineCfgEx
          (ScenarioEngine.start engineCfgEx 0).1 true 5).2 true 7).2.answers.length = 2) := by
  refine ⟨⟨rfl, rfl⟩, rfl, rfl, rfl, rfl⟩

/-- Claim C1 (amended): `submitAnswer` returns null exactly when the
engine is inactive or no question data is present, and only then leaves
the state unchanged; a successful call keeps `active` and
`currentQuestionData` as they were, so a repeated `submitAnswer` for the
same question is accepted again rather than rejected. -/
theorem claim_C1_submitAnswer_guard {Q A E R : Type} (cfg : SEConfig Q A E R)
    (st : SEState Q A E) (a : A) (now : ℚ) :
    ((ScenarioEngine.submitAnswer cfg st a now).1 = none ↔
      st.active = false ∨ st.currentQuestionData = none) ∧
    ((ScenarioEngine.submitAnswer cfg st a now).1 = none →
      (ScenarioEngine.submitAnswer cfg st a now).2 = st) ∧
    (ScenarioEngine.submitAnswer cfg st a now).2.active = st.active ∧
    (ScenarioEngine.submitAnswer cfg st a now).2.currentQuestionData = st.currentQuestionData := by
  unfold ScenarioEngine.submitAnswer
  cases hA : st.active with
  | false => simp [hA]
  | true =>
    cases hq : st.currentQuestionData with
    | none => simp [hA, hq]
    | some q => simp [hA, hq]

/-- Claim C1 witness: on the fresh (inactive) state the guard fires and
`submitAnswer` returns null. -/
theorem claim_C1_witness :
    (ScenarioEngine.submitAnswer engineCfgEx
      (ScenarioEngine.reset : SEState ℕ Bool Unit) true 0).1 = none :=
  (claim_C1_submitAnswer_guard engineCfgEx ScenarioEngine.reset true 0).1.mpr (Or.inl rfl)

/-- Claim C10: `stop()` only clears the `active` flag — every other
state component is untouched — and performs no progress-store write;
a store write (`updateScenarioProgress`) is emitted only on the
`endScenario` path of `nextQuestion`, never by `stop`. -/
theorem claim_C10_stop_frame {Q A E R : Type} (cfg : SEConfig Q A E R)
    (st : SEState Q A E) (now : ℚ) :
    ((ScenarioEngine.stop st).1.active = false ∧
     (ScenarioEngine.stop st).1.currentQuestion = st.currentQuestion ∧
     (ScenarioEngine.stop st).1.correct = st.correct ∧
     (ScenarioEngine.stop st).1.currentQuestionData = st.currentQuestionData ∧
     (ScenarioEngine.stop st).1.questionTimes = st.questionTimes ∧
     (ScenarioEngine.stop st).1.answers = st.answers ∧
     (ScenarioEngine.stop st).1.categoryStats = st.categoryStats) ∧
    (ScenarioEngine.stop st).2 = [] ∧
    ((ScenarioEngine.nextQuestion cfg st now).2 ≠ [] →
      ScenarioEngine.nextQuestion cfg st now = ScenarioEngine.endScenario cfg st ∧
      st.active = true ∧ st.currentQuestion ≥ cfg.totalQuestions) := by
  refine ⟨⟨rfl, rfl, rfl, rfl, rfl, rfl, rfl⟩, rfl, ?_⟩
  intro h
  cases hA : st.active with
  | false =>
    exact absurd (by simp [ScenarioEngine.nextQuestion, hA]) h
  | true =>
    by_cases hN : st.currentQuestion ≥ cfg.totalQuestions
    · exact ⟨by simp [ScenarioEngine.nextQuestion, hA, hN], rfl, hN⟩
    · exact absurd (by simp [ScenarioEngine.nextQuestion, hA, hN]) h

/-- Claim C10 witness: stopping a concrete state emits no effects. -/
theorem claim_C10_witness :
    (ScenarioEngine.stop (ScenarioEngine.reset : SEState ℕ Bool Unit)).2 = [] :=
  (claim_C10_stop_frame engineCfgEx ScenarioEngine.reset 0).2.1

theorem alistLookup_set_self {α : Type} (l : List (String × α)) (k : String) (f : α → α) :
    alistLookup (alistSet l k f) k = (alistLookup l k).map f := by
  induction l with
  | nil => rfl
  | cons hd tl ih =>
    by_cases h : hd.1 = k
    · simp [alistLookup, alistSet, List.find?, h]
    · simp only [alistSet, List.map_cons, if_neg h]
      simp only [alistLookup, List.find?] at ih ⊢
      rw [show (hd.1 == k) = false from beq_eq_false_iff_ne.mpr h]
      simpa [alistSet] using ih

theorem alistLookup_set_ne {α : Type} (l : List (String × α)) (k k' : String) (f : α → α)
    (h : k' ≠ k) : alistLookup (alistSet l k f) k' = alistLookup l k' := by
  induction l with
  | nil => rfl
  | cons hd tl ih =>
    by_cases hh : hd.1 = k
    · simp only [alistSet, List.map_cons, if_pos hh]
      simp only [alistLookup, List.find?] at ih ⊢
      rw [show (hd.1 == k') = false from beq_eq_false_iff_ne.mpr (by rw [hh]; exact (Ne.symm h))]
      simpa [alistSet] using ih
    · simp only [alistSet, List.map_cons, if_neg hh]
      simp only [alistLookup, List.find?] at ih ⊢
      cases hb : (hd.1 == k') with
      | true => simp
      | false => simpa [alistSet, hb] using ih

theorem scenRecordAttempt_unlocked (sc : ScenarioRecord) (stats : SessionStats) (now : ℕ) :
    (scenRecordAttempt sc stats now).unlocked = sc.unlocked := by
  dsimp only [scenRecordAttempt]; split_ifs <;> rfl

theorem scenRecordAttempt_bestScore (sc : ScenarioRecord) (stats : SessionStats) (now : ℕ) :
    (scenRecordAttempt sc stats now).bestScore =
      if stats.accuracy > sc.bestScore then stats.accuracy else sc.bestScore := by
  dsimp only [scenRecordAttempt]; split_ifs <;> rfl

theorem tier1At75_set_congr (m : List (String × ScenarioRecord)) (k : String)
    (f g : ScenarioRecord → ScenarioRecord)
    (h : ∀ r, (f r).bestScore = (g r).bestScore) :
    tier1At75 (alistSet m k f) = tier1At75 (alistSet m k g) := by
  unfold tier1At75
  congr 1
  apply List.filter_congr
  intro uid _
  by_cases hk : uid = k
  · subst hk
    rw [alistLookup_set_self, alistLookup_set_self]
    cases alistLookup m uid with
    | none => rfl
    | some r => simp [h r]
  · rw [alistLookup_set_ne _ _ _ _ hk, alistLookup_set_ne _ _ _ _ hk]

/-- Claim C9: when an `updateScenarioProgress` call passes its threshold
and newly completes a scenario, and at that point (the attempt's best
score recorded) at least 2 of the 4 Tier-1 scenarios have bestScore at
least 75, the `cold-4bet` record becomes unlocked; and while fewer than 2
Tier-1 scenarios have bestScore at least 75, the call leaves `cold-4bet`'s
unlocked flag untouched. -/
theorem claim_C9_cold4bet_unlock (p : ProgressState) (scenarioId : String)
    (stats : SessionStats) (now : ℕ) (sc : ScenarioRecord)
    (hsc : alistLookup p.scenarios.modules scenarioId = some sc) :
    (stats.accuracy ≥ getScenarioThreshold scenarioId → sc.completed = false →
      2 ≤ tier1At75 (alistSet p.scenarios.modules scenarioId
        fun _ => scenRecordAttempt sc stats now) →
      (alistLookup p.scenarios.modules "cold-4bet").isSome = true →
      ((alistLookup (updateScenarioProgress p scenarioId stats now).2.scenarios.modules
        "cold-4bet").map (·.unlocked)) = some true) ∧
    (tier1At75 (alistSet p.scenarios.modules scenarioId
        fun _ => scenRecordAttempt sc stats now) < 2 →
      ((alistLookup (updateScenarioProgress p scenarioId stats now).2.scenarios.modules
        "cold-4bet").map (·.unlocked)) =
      ((alistLookup p.scenarios.modules "cold-4bet").map (·.unlocked))) := by
  have hcong := tier1At75_set_congr p.scenarios.modules scenarioId
    (fun _ => scenComplete (scenRecordAttempt sc stats now))
    (fun _ => scenRecordAttempt sc stats now) (fun r => rfl)
  constructor
  · intro hpass hnew htier hsome
    unfold updateScenarioProgress
    rw [hsc]
    dsimp only
    rw [if_pos ⟨hpass, hnew⟩]
    dsimp only
    split_ifs with hgate
    · rw [alistLookup_set_self]
      by_cases hc : ("cold-4bet" : String) = scenarioId
      · rw [hc, alistLookup_set_self, hsc]
        rfl
      · rw [alistLookup_set_ne _ _ _ _ hc]
        cases hl : alistLookup p.scenarios.modules "cold-4bet" with
        | none => rw [hl] at hsome; exact absurd hsome (by simp)
        | some r => rfl
    · exfalso
      apply hgate
      constructor
      · rw [hcong]
        exact htier
      · by_cases hc : ("cold-4bet" : String) = scenarioId
        · rw [hc, alistLookup_set_self, hsc]; rfl
        · rw [alistLookup_set_ne _ _ _ _ hc]
          exact hsome
  · intro htier
    unfold updateScenarioProgress
    rw [hsc]
    dsimp only
    by_cases hcond : stats.accuracy ≥ getScenarioThreshold scenarioId ∧ sc.completed = false
    · rw [if_pos hcond]
      dsimp only
      rw [if_neg (by rw [hcong]; omega)]
      by_cases hc : ("cold-4bet" : String) = scenarioId
      · rw [hc, alistLookup_set_self, hsc]
        simp [scenComplete, scenRecordAttempt_unlocked]
      · rw [alistLookup_set_ne _ _ _ _ hc]
    · rw [if_neg hcond]
      dsimp only
      by_cases hc : ("cold-4bet" : String) = scenarioId
      · rw [hc, alistLookup_set_self, hsc]
        simp [scenRecordAttempt_unlocked]
      · rw [alistLookup_set_ne _ _ _ _ hc]

/-- A scenario record with the given flags and best score. -/
def scenRecEx (u c : Bool) (b : ℚ) : ScenarioRecord :=
  { unlocked := u, completed := c, bestScore := b, attempts := 0, lastAttempt := none }

/-- A concrete progress state: Tier-1 scenario `defend-3bet` already at
best score 80, everything else fresh, `cold-4bet` locked. -/
def progressEx : ProgressState :=
  { drills :=
      { unlocked := true, completed := true, modules := [], totalAttempts := 0,
        achievements := [] }
    scenarios :=
      { unlocked := true, completed := false
        modules :=
          [("defend-3bet", scenRecEx true true 80),
           ("bb-defense", scenRecEx true false 0),
           ("3bet-value", scenRecEx true false 0),
           ("sb-3bet-fold", scenRecEx true false 0),
           ("cold-4bet", scenRecEx false false 0),
           ("board-texture", scenRecEx true false 0)]
        achievements := [] }
    fullHandsUnlocked := false }

/-- Claim C9 witness: with `defend-3bet` best 80 already recorded,
completing `bb-defense` at 80 makes two Tier-1 scenarios reach 75, and
`cold-4bet` unlocks. -/
theorem claim_C9_witness :
    ((alistLookup (updateScenarioProgress progressEx "bb-defense"
        ⟨80, 0, 0⟩ 0).2.scenarios.modules "cold-4bet").map (·.unlocked)) = some true :=
  (claim_C9_cold4bet_unlock progressEx "bb-defense" ⟨80, 0, 0⟩ 0 (scenRecEx true false 0)
    (by decide)).1 (by decide) (by decide) (by decide) (by decide)

/-! ## Claim C2: monotonicity of the progress records

`AttemptCall` is one `recordAttempt`-style call — either
`updateDrillProgress` or `updateScenarioProgress` with arbitrary session
statistics; `runAttempts` runs a whole sequence of them. -/

inductive AttemptCall
  | drill (uid : String) (stats : SessionStats) (now : ℕ)
  | scen (uid : String) (stats : SessionStats) (now : ℕ)

def applyAttempt (p : ProgressState) (c : AttemptCall) : ProgressState :=
  match c with
  | .drill uid stats now => (updateDrillProgress p uid stats now).2
  | .scen uid stats now => (updateScenarioProgress p uid stats now).2

def runAttempts (p : ProgressState) (cs : List AttemptCall) : ProgressState :=
  cs.foldl applyAttempt p

/-- What claim C2 asserts record-wise: best score and best streak never
decrease, the best time never increases once set, completion never
reverts. -/
def DrillRecord.progressLe (r r' : DrillRecord) : Prop :=
  r.bestScore ≤ r'.bestScore ∧ r.bestStreak ≤ r'.bestStreak ∧
  (∀ t, r.bestTime = some t → ∃ t', r'.bestTime = some t' ∧ t' ≤ t) ∧
  (r.completed = true → r'.completed = true)

/-- The scenario records carry only a best score and the completion
flag. -/
def ScenarioRecord.progressLe (r r' : ScenarioRecord) : Prop :=
  r.bestScore ≤ r'.bestScore ∧ (r.completed = true → r'.completed = true)

theorem drill_progressLe_refl (r : DrillRecord) : r.progressLe r :=
  ⟨le_refl _, le_refl _, fun t ht => ⟨t, ht, le_refl _⟩, fun hc => hc⟩

theorem drill_progressLe_trans {a b c : DrillRecord}
    (h1 : a.progressLe b) (h2 : b.progressLe c) : a.progressLe c := by
  obtain ⟨s1, k1, t1, c1⟩ := h1
  obtain ⟨s2, k2, t2, c2⟩ := h2
  refine ⟨le_trans s1 s2, le_trans k1 k2, fun t ht => ?_, fun hc => c2 (c1 hc)⟩
  obtain ⟨u, hu, hut⟩ := t1 t ht
  obtain ⟨v, hv, hvu⟩ := t2 u hu
  exact ⟨v, hv, le_trans hvu hut⟩

theorem scen_progressLe_refl (r : ScenarioRecord) : r.progressLe r :=
  ⟨le_refl _, fun hc => hc⟩

theorem scen_progressLe_trans {a b c : ScenarioRecord}
    (h1 : a.progressLe b) (h2 : b.progressLe c) : a.progressLe c :=
  ⟨le_trans h1.1 h2.1, fun hc => h2.2 (h1.2 hc)⟩

theorem progressLe_score_step (x : DrillRecord) (a : ℚ) :
    x.progressLe (if a > x.bestScore then { x with bestScore := a } else x) := by
  split_ifs with h
  · exact ⟨le_of_lt h, le_refl _, fun t ht => ⟨t, ht, le_refl _⟩, fun hc => hc⟩
  · exact drill_progressLe_refl x

theorem progressLe_streak_step (x : DrillRecord) (b : ℚ) :
    x.progressLe (if b > x.bestStreak then { x with bestStreak := b } else x) := by
  split_ifs with h
  · exact ⟨le_refl _, le_of_lt h, fun t ht => ⟨t, ht, le_refl _⟩, fun hc => hc⟩
  · exact drill_progressLe_refl x

theorem progressLe_time_step (x : DrillRecord) (a : ℚ) :
    x.progressLe (if a ≠ 0 ∧ bestTimeImproves a x.bestTime = true
      then { x with bestTime := some a } else x) := by
  split_ifs with h
  · refine ⟨le_refl _, le_refl _, fun t ht => ⟨a, rfl, ?_⟩, fun hc => hc⟩
    have h2 := h.2
    rw [ht] at h2
    exact le_of_lt (of_decide_eq_true h2)
  · exact drill_progressLe_refl x

theorem drillRecordAttempt_progressLe (d : DrillRecord) (stats : SessionStats) (now : ℕ) :
    d.progressLe (drillRecordAttempt d stats now) := by
  have h1 : d.progressLe { d with attempts := d.attempts + 1, lastAttempt := some now } :=
    ⟨le_refl _, le_refl _, fun t ht => ⟨t, ht, le_refl _⟩, fun hc => hc⟩
  have h2 := drill_progressLe_trans h1
    (progressLe_score_step { d with attempts := d.attempts + 1, lastAttempt := some now }
      stats.accuracy)
  have h3 := drill_progressLe_trans h2 (progressLe_streak_step _ stats.bestStreak)
  have h4 := drill_progressLe_trans h3 (progressLe_time_step _ stats.avgTime)
  exact h4

theorem scenRecordAttempt_progressLe (sc : ScenarioRecord) (stats : SessionStats) (now : ℕ) :
    sc.progressLe (scenRecordAttempt sc stats now) := by
  dsimp only [scenRecordAttempt]
  split_ifs with h
  · exact ⟨le_of_lt h, fun hc => hc⟩
  · exact scen_progressLe_refl sc

theorem progressLe_unlockDrill {r x : DrillRecord} (h : r.progressLe x) :
    r.progressLe (unlockDrill x) := h

theorem progressLe_drillComplete {r x : DrillRecord} (h : r.progressLe x) :
    r.progressLe (drillComplete x) :=
  ⟨h.1, h.2.1, h.2.2.1, fun _ => rfl⟩

theorem progressLe_unlockScen {r x : ScenarioRecord} (h : r.progressLe x) :
    r.progressLe (unlockScen x) := h

theorem progressLe_scenComplete {r x : ScenarioRecord} (h : r.progressLe x) :
    r.progressLe (scenComplete x) :=
  ⟨h.1, fun _ => rfl⟩

theorem lookup_set_outcomes {α : Type} (M : List (String × α)) (k uid : String) (f : α → α)
    (r : α) (hr : alistLookup M uid = some r) :
    ∃ r', alistLookup (alistSet M k f) uid = some r' ∧ (r' = f r ∨ r' = r) := by
  by_cases hu : uid = k
  · subst hu
    rw [alistLookup_set_self, hr]
    exact ⟨f r, rfl, Or.inl rfl⟩
  · rw [alistLookup_set_ne _ _ _ _ hu]
    exact ⟨r, hr, Or.inr rfl⟩

theorem updateScenario_drills_eq (p : ProgressState) (sid : String) (stats : SessionStats)
    (now : ℕ) : (updateScenarioProgress p sid stats now).2.drills = p.drills := by
  unfold updateScenarioProgress
  cases hl : alistLookup p.scenarios.modules sid with
  | none => rfl
  | some sc =>
    dsimp only
    split_ifs <;> rfl

theorem updateDrill_scen_modules_eq (p : ProgressState) (did : String) (stats : SessionStats)
    (now : ℕ) :
    (updateDrillProgress p did stats now).2.scenarios.modules = p.scenarios.modules := by
  unfold updateDrillProgress
  cases hl : alistLookup p.drills.modules did with
  | none => rfl
  | some drill =>
    dsimp only
    split_ifs <;> rfl

theorem lookup_set_progressLe_drill (M : List (String × DrillRecord)) (k uid : String)
    (f : DrillRecord → DrillRecord)
    (hf : ∀ x, alistLookup M k = some x → x.progressLe (f x)) (r : DrillRecord)
    (hr : alistLookup M uid = some r) :
    ∃ r', alistLookup (alistSet M k f) uid = some r' ∧ r.progressLe r' := by
  by_cases hu : uid = k
  · subst hu
    rw [alistLookup_set_self, hr]
    exact ⟨f r, rfl, hf r hr⟩
  · rw [alistLookup_set_ne _ _ _ _ hu]
    exact ⟨r, hr, drill_progressLe_refl r⟩

theorem lookup_set_progressLe_scen (M : List (String × ScenarioRecord)) (k uid : String)
    (f : ScenarioRecord → ScenarioRecord)
    (hf : ∀ x, alistLookup M k = some x → x.progressLe (f x)) (r : ScenarioRecord)
    (hr : alistLookup M uid = some r) :
    ∃ r', alistLookup (alistSet M k f) uid = some r' ∧ r.progressLe r' := by
  by_cases hu : uid = k
  · subst hu
    rw [alistLookup_set_self, hr]
    exact ⟨f r, rfl, hf r hr⟩
  · rw [alistLookup_set_ne _ _ _ _ hu]
    exact ⟨r, hr, scen_progressLe_refl r⟩

theorem drill_step_drills (p : ProgressState) (c : AttemptCall) (uid : String) (r : DrillRecord)
    (hr : alistLookup p.drills.modules uid = some r) :
    ∃ r', alistLookup (applyAttempt p c).drills.modules uid = some r' ∧ r.progressLe r' := by
  cases c with
  | scen sid stats now =>
    refine ⟨r, ?_, drill_progressLe_refl r⟩
    dsimp only [applyAttempt]
    rw [updateScenario_drills_eq]
    exact hr
  | drill did stats now =>
    dsimp only [applyAttempt]
    unfold updateDrillProgress
    cases hl : alistLookup p.drills.modules did with
    | none => exact ⟨r, hr, drill_progressLe_refl r⟩
    | some drill =>
      have hcf : ∀ x, alistLookup p.drills.modules did = some x →
          x.progressLe ((fun _ => drillComplete (drillRecordAttempt drill stats now)) x) := by
        intro x hx
        rw [hl] at hx
        obtain rfl : drill = x := Option.some.inj hx
        exact progressLe_drillComplete (drillRecordAttempt_progressLe _ _ _)
      have haf : ∀ x, alistLookup p.drills.modules did = some x →
          x.progressLe ((fun _ => drillRecordAttempt drill stats now) x) := by
        intro x hx
        rw [hl] at hx
        obtain rfl : drill = x := Option.some.inj hx
        exact drillRecordAttempt_progressLe _ _ _
      dsimp only
      cases hn : nextInOrder DRILL_ORDER did <;>
        dsimp only <;>
        split_ifs <;>
        dsimp only <;>
        first
        | exact lookup_set_progressLe_drill _ did uid _ haf r hr
        | exact lookup_set_progressLe_drill _ did uid _ hcf r hr
        | (obtain ⟨r1, hr1, hle1⟩ := lookup_set_progressLe_drill _ did uid _ hcf r hr
           obtain ⟨r2, hr2, hle2⟩ := lookup_set_progressLe_drill _ _ uid unlockDrill
             (fun x _ => progressLe_unlockDrill (drill_progressLe_refl x)) r1 hr1
           exact ⟨r2, hr2, drill_progressLe_trans hle1 hle2⟩)

theorem scen_step_scens (p : ProgressState) (c : AttemptCall) (uid : String)
    (r : ScenarioRecord) (hr : alistLookup p.scenarios.modules uid = some r) :
    ∃ r', alistLookup (applyAttempt p c).scenarios.modules uid = some r' ∧
      r.progressLe r' := by
  cases c with
  | drill did stats now =>
    refine ⟨r, ?_, scen_progressLe_refl r⟩
    dsimp only [applyAttempt]
    rw [updateDrill_scen_modules_eq]
    exact hr
  | scen sid stats now =>
    dsimp only [applyAttempt]
    unfold updateScenarioProgress
    cases hl : alistLookup p.scenarios.modules sid with
    | none => exact ⟨r, hr, scen_progressLe_refl r⟩
    | some sc =>
      have hcf : ∀ x, alistLookup p.scenarios.modules sid = some x →
          x.progressLe ((fun _ => scenComplete (scenRecordAttempt sc stats now)) x) := by
        intro x hx
        rw [hl] at hx
        obtain rfl : sc = x := Option.some.inj hx
        exact progressLe_scenComplete (scenRecordAttempt_progressLe _ _ _)
      have haf : ∀ x, alistLookup p.scenarios.modules sid = some x →
          x.progressLe ((fun _ => scenRecordAttempt sc stats now) x) := by
        intro x hx
        rw [hl] at hx
        obtain rfl : sc = x := Option.some.inj hx
        exact scenRecordAttempt_progressLe _ _ _
      dsimp only
      split_ifs <;>
        dsimp only <;>
        first
        | exact lookup_set_progressLe_scen _ sid uid _ haf r hr
        | exact lookup_set_progressLe_scen _ sid uid _ hcf r hr
        | (obtain ⟨r1, hr1, hle1⟩ := lookup_set_progressLe_scen _ sid uid _ hcf r hr
           obtain ⟨r2, hr2, hle2⟩ := lookup_set_progressLe_scen _ "cold-4bet" uid unlockScen
             (fun x _ => progressLe_unlockScen (scen_progressLe_refl x)) r1 hr1
           exact ⟨r2, hr2, scen_progressLe_trans hle1 hle2⟩)

/-- Claim C2: across every sequence of `updateDrillProgress` /
`updateScenarioProgress` calls with arbitrary session statistics, every
drill record's bestScore and bestStreak never decrease, its bestTime
never increases once set, and completed never reverts; every scenario
record's bestScore never decreases and completed never reverts. -/
theorem claim_C2_monotonic (p : ProgressState) (cs : List AttemptCall) (uid : String) :
    (∀ r, alistLookup p.drills.modules uid = some r →
      ∃ r', alistLookup (runAttempts p cs).drills.modules uid = some r' ∧
        r.progressLe r') ∧
    (∀ r, alistLookup p.scenarios.modules uid = some r →
      ∃ r', alistLookup (runAttempts p cs).scenarios.modules uid = some r' ∧
        r.progressLe r') := by
  induction cs generalizing p with
  | nil =>
    exact ⟨fun r hr => ⟨r, hr, drill_progressLe_refl r⟩,
      fun r hr => ⟨r, hr, scen_progressLe_refl r⟩⟩
  | cons c cs ih =>
    constructor
    · intro r hr
      obtain ⟨r1, hr1, hle1⟩ := drill_step_drills p c uid r hr
      obtain ⟨r2, hr2, hle2⟩ := (ih (applyAttempt p c)).1 r1 hr1
      exact ⟨r2, hr2, drill_progressLe_trans hle1 hle2⟩
    · intro r hr
      obtain ⟨r1, hr1, hle1⟩ := scen_step_scens p c uid r hr
      obtain ⟨r2, hr2, hle2⟩ := (ih (applyAttempt p c)).2 r1 hr1
      exact ⟨r2, hr2, scen_progressLe_trans hle1 hle2⟩

/-- A drill record with the given flags and best score. -/
def drillRecEx (u c : Bool) (b : ℚ) : DrillRecord :=
  { unlocked := u, completed := c, bestScore := b, bestStreak := 0, bestTime := none,
    attempts := 0, lastAttempt := none }

/-- The default drills stage of storage.js (only `hand-ranking`
unlocked). -/
def progressDrillsEx : ProgressState :=
  { drills :=
      { unlocked := true, completed := false
        modules :=
          [("hand-ranking", drillRecEx true false 0),
           ("open-fold", drillRecEx false false 0),
           ("equity-snap", drillRecEx false false 0),
           ("range-check", drillRecEx false false 0),
           ("position-speed", drillRecEx false false 0)]
        totalAttempts := 0, achievements := [] }
    scenarios := { unlocked := false, completed := false, modules := [], achievements := [] }
    fullHandsUnlocked := false }

/-- Claim C2 witness: a passing attempt followed by a worse attempt on
`hand-ranking`, starting from the default drills stage, still yields a
record above the original in the progress order. -/
theorem claim_C2_witness :
    ∃ r', alistLookup (runAttempts progressDrillsEx
        [AttemptCall.drill "hand-ranking" ⟨90, 10, 1500⟩ 1,
         AttemptCall.drill "hand-ranking" ⟨50, 2, 3000⟩ 2]).drills.modules
      "hand-ranking" = some r' ∧ (drillRecEx true false 0).progressLe r' :=
  (claim_C2_monotonic progressDrillsEx
    [AttemptCall.drill "hand-ranking" ⟨90, 10, 1500⟩ 1,
     AttemptCall.drill "hand-ranking" ⟨50, 2, 3000⟩ 2] "hand-ranking").1
    (drillRecEx true false 0) (by decide)

end Libregto
